import Mathlib

/-!
Shallow embedding of the time-series analysis notebook
(`Tme series analysis-checkpoint.ipynb`) over the FRED DGS10 yield series.

Series are embedded as association lists `List (α × ℚ)` of (index, value)
pairs; a missing value (pandas `NaN`) is `none` in `Option ℚ`.  The
statistical library calls (`adfuller`, `AutoReg(...).fit()`) are opaque
external routines and enter the embedding as oracle parameters; every piece
of logic the notebook itself performs (masking, differencing, resampling
arithmetic, the AIC grid-search loop, the selection expression, the literal
polynomial coefficients) is translated directly from the code.
-/

namespace TSA

/-! ### Loading and filtering (`fred_data0`) -/

/-- One row of the loaded CSV: the `DATE` index, the `DGS10` column and the
remaining columns, each possibly missing. -/
structure Row (α : Type) where
  date : α
  DGS10 : Option ℚ
  others : List (Option ℚ)

/-- The boolean mask `fred_data.isna()["DGS10"]`: whether the `DGS10` entry
of a row is missing. -/
def isna_DGS10 (r : Row α) : Bool := r.DGS10.isNone

/-- `fred_data0 = fred_data[fred_data.isna()["DGS10"]==False]`. -/
def fred_data0 (fred_data : List (Row α)) : List (Row α) :=
  fred_data.filter (fun r => isna_DGS10 r == false)

/-! ### First differencing: `(series.shift(1) - series).dropna()` -/

/-- Tail of `series.shift(1) - series`: at each remaining position the value
is the previous raw value minus the current one. -/
def shiftSubGo (prev : ℚ) : List (α × ℚ) → List (α × Option ℚ)
  | [] => []
  | (i, v) :: t => (i, some (prev - v)) :: shiftSubGo v t

/-- `series.shift(1) - series`: the first position becomes missing (`shift`
introduces a `NaN`, which propagates through the subtraction), and position
`t ≥ 1` holds `x_{t-1} - x_t`.  The index is unchanged. -/
def shiftSub : List (α × ℚ) → List (α × Option ℚ)
  | [] => []
  | (i, v) :: t => (i, none) :: shiftSubGo v t

/-- `.dropna()`: remove the rows whose value is missing. -/
def dropna (s : List (α × Option ℚ)) : List (α × ℚ) :=
  s.filterMap (fun p => p.2.map (fun v => (p.1, v)))

/-- `diff_DGS10_* = (X.shift(1) - X).dropna()` as computed in the notebook
for the daily, weekly and monthly series. -/
def diff_series (s : List (α × ℚ)) : List (α × ℚ) :=
  dropna (shiftSub s)

/-! ### Resampling to OHLC bars (`resample_plot`) -/

/-- Python `min(l)` on a nonempty list (the default is never used under the
nonemptiness hypotheses below). -/
def pyMin : List ℚ → ℚ
  | [] => 0
  | a :: t => t.foldl min a

/-- Python `max(l)` on a nonempty list. -/
def pyMax : List ℚ → ℚ
  | [] => 0
  | a :: t => t.foldl max a

/-- One row of the dataframe built by `resample_plot`, with columns
`['open', 'high', 'low', 'close']`. -/
structure OHLCRow where
  «open» : ℚ
  high : ℚ
  low : ℚ
  close : ℚ

/-- The dictionary `ohlc` applied to one resample group:
`open = x[0]`, `high = max`, `low = min`, `close = x[-1]`. -/
def ohlc_row (g : List ℚ) : OHLCRow :=
  { «open» := g.headD 0
    high := pyMax g
    low := pyMin g
    close := (g.getLast?).getD 0 }

/-- `resample_plot(data, how)` builds, for each sub-period group produced by
`data.resample(how)`, the row of the four `ohlc` aggregates.  The calendar
grouping itself is performed by pandas, so the function takes the list of
groups (each the list of raw values falling in one sub-period). -/
def resample_plot (groups : List (List ℚ)) : List OHLCRow :=
  groups.map ohlc_row

/-- `df[['close']]`: the close column, as taken for `DGS10_weekly` and
`DGS10_monthly`. -/
def close_column (rows : List OHLCRow) : List ℚ :=
  rows.map OHLCRow.close

/-- The weekly/monthly series used downstream:
`DGS10_weekly = OHLC_weekly[['close']]` with `OHLC_weekly = resample_plot(...)`. -/
def DGS10_resampled (groups : List (List ℚ)) : List ℚ :=
  close_column (resample_plot groups)

/-! ### The AR(p) grid search over orders 0..24 -/

/-- `p = range(0, 25)`: the candidate orders. -/
def AR_orders : List ℕ := List.range 25

/-- One iteration of the search loop.  The external
`AutoReg(series, param).fit()` call is the oracle `fit`: `none` models an
exception (the `except: continue` branch appends nothing), `some a` a
successful fit with AIC `a`, in which case the loop appends `a` to `AIC`
and `[param]` to `AR_model`. -/
def AR_grid_step (fit : ℕ → Option ℚ) (acc : List ℚ × List (List ℕ)) (param : ℕ) :
    List ℚ × List (List ℕ) :=
  match fit param with
  | none => acc
  | some a => (acc.1 ++ [a], acc.2 ++ [[param]])

/-- The whole loop: the final `(AIC, AR_model)` pair. -/
def AR_grid_search (fit : ℕ → Option ℚ) : List ℚ × List (List ℕ) :=
  AR_orders.foldl (AR_grid_step fit) ([], [])

/-- The successfully fitted candidates of a list of orders, each paired with
its recorded AIC. -/
def AR_successes_on (fit : ℕ → Option ℚ) (ps : List ℕ) : List (ℕ × ℚ) :=
  ps.filterMap (fun p => (fit p).map (fun a => (p, a)))

/-- The successfully fitted candidates of the whole search. -/
def AR_successes (fit : ℕ → Option ℚ) : List (ℕ × ℚ) :=
  AR_successes_on fit AR_orders

/-- Python `l.index(v)`: the position of the first element equal to `v`
(the list always contains `v` where this is used, so the out-of-range
default of `findIdx` never engages under the hypotheses below). -/
def pyIndex (l : List ℚ) (v : ℚ) : ℕ :=
  l.findIdx (fun x => decide (x = v))

/-- The order the notebook prints as best:
`AR_model[AIC.index(min(AIC))][0]`. -/
def best_order (fit : ℕ → Option ℚ) : ℕ :=
  ((((AR_grid_search fit).2).getD
      (pyIndex (AR_grid_search fit).1 (pyMin (AR_grid_search fit).1)) []).headD 0)

/-- The order of the model actually fitted and summarized after the monthly
grid search: the literal `0` in `AutoReg(diff_DGS10_monthly.values, 0)`. -/
def fitted_order_monthly : ℕ := 0

/-- The order of the model actually fitted and summarized after the weekly
grid search: the literal `2` in `AutoReg(diff_DGS10_weekly.values, 2)`. -/
def fitted_order_weekly : ℕ := 2

/-! ### The augmented Dickey-Fuller test cells -/

/-- Periodicity of a series in the notebook. -/
inductive Freq where
  | daily
  | weekly
  | monthly
deriving DecidableEq

/-- The 6-tuple returned by `sm.tsa.stattools.adfuller`, destructured in the
notebook as `adf, p, usedlag, nobs, cvs, aic = adfuller(...)`. -/
abbrev ADFTuple : Type := ℚ × ℚ × ℕ × ℕ × List ℚ × ℚ

/-- The value each ADF cell prints: `print(p)`, the second component of the
returned tuple. -/
def adf_print (r : ADFTuple) : ℚ := r.2.1

/-- `series.values`: the raw value column of a series. -/
def values (s : List (α × ℚ)) : List ℚ := s.map Prod.snd

/-- The six ADF cells, in notebook order: `adfuller` on each raw series, then
on each series differenced by `(X.shift(1)-X).dropna()`.  Each record keeps
the periodicity, whether the input was differenced, and the printed value. -/
def adf_section (adfuller : List ℚ → ADFTuple) (daily weekly monthly : List (α × ℚ)) :
    List (Freq × Bool × ℚ) :=
  [ (.daily, false, adf_print (adfuller (values daily))),
    (.weekly, false, adf_print (adfuller (values weekly))),
    (.monthly, false, adf_print (adfuller (values monthly))),
    (.daily, true, adf_print (adfuller (values (diff_series daily)))),
    (.weekly, true, adf_print (adfuller (values (diff_series weekly)))),
    (.monthly, true, adf_print (adfuller (values (diff_series monthly)))) ]

/-! ### The AR(2) stationarity check (cell calling `polyroots`) -/

/-- The fitted weekly AR(2) lag-1 coefficient reported by the model summary
(`-0.1` in the notebook's text). -/
def AR2_phi1 : ℚ := -1/10

/-- The fitted weekly AR(2) lag-2 coefficient (`0.04`). -/
def AR2_phi2 : ℚ := 4/100

/-- The literal coefficient tuple the notebook passes to
`np.polynomial.polynomial.polyroots`: `(1, -0.1, 0.04)`. -/
def polyroots_coeffs : List ℚ := [1, -1/10, 4/100]

/-- The coefficient sequence of the AR(2) characteristic polynomial
`phi(z) = 1 - phi1*z - phi2*z^2` in `polyroots` order (constant first). -/
def char_poly_coeffs : List ℚ := [1, -AR2_phi1, -AR2_phi2]

/-- Discriminant of the quadratic with coefficient list `[c0, c1, c2]`
(constant first): negative exactly when the roots are a complex pair. -/
def quad_disc (c : List ℚ) : ℚ :=
  (c.getD 1 0) ^ 2 - 4 * (c.getD 2 0) * (c.getD 0 0)

/-! ### Concrete instances used by witnesses and counterexamples -/

/-- A two-point series: `x_0 = 0`, `x_1 = 1`. -/
def sC1 : List (ℕ × ℚ) := [(0, 0), (1, 1)]

/-- A two-point series: `x_0 = 2`, `x_1 = 5`. -/
def sW1 : List (ℕ × ℚ) := [(0, 2), (1, 5)]

/-- A two-point series used by the C9 witness. -/
def sW9 : List (ℕ × ℚ) := [(0, 1), (1, 2)]

/-- An AIC oracle on which candidate order 1 is the unique AIC minimizer. -/
def fitC2 : ℕ → Option ℚ := fun p => some (if p = 1 then 0 else 1)

/-- An AIC oracle on which every candidate order fits with AIC 1. -/
def fitW4 : ℕ → Option ℚ := fun _ => some 1

/-- An AIC oracle on which fitting order 3 raises and all others succeed. -/
def fitW6 : ℕ → Option ℚ := fun p => if p = 3 then none else some 1

/-- A CSV row with `DGS10` present and a missing value in another column. -/
def rowW1 : Row ℕ := ⟨0, some 1, [none]⟩

/-- A CSV row with `DGS10` missing. -/
def rowW2 : Row ℕ := ⟨1, none, [some 2]⟩

/-- A two-row table exercising the `fred_data0` filter. -/
def dfW : List (Row ℕ) := [rowW1, rowW2]

/-- A constant ADF oracle. -/
def adfW : List ℚ → ADFTuple := fun _ => (0, 0, 0, 0, [], 0)

/-- A single resample group with two observations. -/
def groupsW5 : List (List ℚ) := [[1, 2]]

/-- A single resample group with three observations. -/
def groupsW10 : List (List ℚ) := [[2, 1, 3]]

/-! ### Helper lemmas: differencing -/

lemma dropna_shiftSubGo (u : List (α × ℚ)) :
    ∀ (j : α) (prev : ℚ),
      dropna (shiftSubGo prev u) =
        (((j, prev) :: u).zip u).map (fun p => (p.2.1, p.1.2 - p.2.2)) := by
  induction u with
  | nil => intro j prev; rfl
  | cons hd t ih =>
    intro j prev
    obtain ⟨i, v⟩ := hd
    simp only [shiftSubGo, dropna, List.filterMap_cons, Option.map_some', List.zip_cons_cons,
      List.map_cons]
    exact congrArg _ (ih i v)

lemma diff_series_eq (s : List (α × ℚ)) :
    diff_series s = (s.zip s.tail).map (fun p => (p.2.1, p.1.2 - p.2.2)) := by
  cases s with
  | nil => rfl
  | cons hd t =>
    obtain ⟨i, v⟩ := hd
    simp only [diff_series, shiftSub, dropna, List.filterMap_cons, Option.map_none']
    exact dropna_shiftSubGo t i v

lemma diff_series_length (s : List (α × ℚ)) :
    (diff_series s).length = s.length - 1 := by
  rw [diff_series_eq, List.length_map, List.length_zip, List.length_tail]
  omega

lemma diff_series_getElem (s : List (α × ℚ)) (i : ℕ) (h : i + 1 < s.length) :
    (diff_series s)[i]? =
      some ((s.get ⟨i + 1, h⟩).1,
        (s.get ⟨i, Nat.lt_of_succ_lt h⟩).2 - (s.get ⟨i + 1, h⟩).2) := by
  have hlen : i < (diff_series s).length := by rw [diff_series_length]; omega
  have hz : i < (s.zip s.tail).length := by
    rw [List.length_zip, List.length_tail]; omega
  have htail : i < s.tail.length := by rw [List.length_tail]; omega
  rw [diff_series_eq]
  have hm : i < ((s.zip s.tail).map (fun p => (p.2.1, p.1.2 - p.2.2))).length := by
    rw [List.length_map]; exact hz
  rw [List.getElem?_eq_getElem hm, List.getElem_map, List.getElem_zip]
  have ht : s.tail.get ⟨i, htail⟩ = s.get ⟨i + 1, h⟩ := by
    cases s with
    | nil => simp at h
    | cons hd t => rfl
  simp only [List.get_eq_getElem] at ht
  simp only [List.get_eq_getElem, ht]

/-! ### Helper lemmas: fold-based min and max -/

lemma foldl_min_mem : ∀ (t : List ℚ) (a : ℚ), t.foldl min a ∈ a :: t := by
  intro t
  induction t with
  | nil => intro a; simp
  | cons b t ih =>
    intro a
    rw [List.foldl_cons]
    rcases List.mem_cons.1 (ih (min a b)) with h1 | h1
    · rw [h1]
      rcases min_choice a b with hc | hc <;> rw [hc]
      · exact List.mem_cons_self _ _
      · exact List.mem_cons_of_mem _ (List.mem_cons_self _ _)
    · exact List.mem_cons_of_mem _ (List.mem_cons_of_mem _ h1)

lemma foldl_min_le : ∀ (t : List ℚ) (a : ℚ), ∀ x ∈ a :: t, t.foldl min a ≤ x := by
  intro t
  induction t with
  | nil =>
    intro a x hx
    rcases List.mem_singleton.1 hx with rfl
    exact le_refl x
  | cons b t ih =>
    intro a x hx
    rw [List.foldl_cons]
    have hmin : t.foldl min (min a b) ≤ min a b := ih (min a b) _ (List.mem_cons_self _ _)
    rcases List.mem_cons.1 hx with rfl | hx1
    · exact le_trans hmin (min_le_left _ _)
    rcases List.mem_cons.1 hx1 with rfl | hx2
    · exact le_trans hmin (min_le_right _ _)
    · exact ih (min a b) x (List.mem_cons_of_mem _ hx2)

lemma foldl_max_mem : ∀ (t : List ℚ) (a : ℚ), t.foldl max a ∈ a :: t := by
  intro t
  induction t with
  | nil => intro a; simp
  | cons b t ih =>
    intro a
    rw [List.foldl_cons]
    rcases List.mem_cons.1 (ih (max a b)) with h1 | h1
    · rw [h1]
      rcases max_choice a b with hc | hc <;> rw [hc]
      · exact List.mem_cons_self _ _
      · exact List.mem_cons_of_mem _ (List.mem_cons_self _ _)
    · exact List.mem_cons_of_mem _ (List.mem_cons_of_mem _ h1)

lemma le_foldl_max : ∀ (t : List ℚ) (a : ℚ), ∀ x ∈ a :: t, x ≤ t.foldl max a := by
  intro t
  induction t with
  | nil =>
    intro a x hx
    rcases List.mem_singleton.1 hx with rfl
    exact le_refl x
  | cons b t ih =>
    intro a x hx
    rw [List.foldl_cons]
    have hmax : max a b ≤ t.foldl max (max a b) := ih (max a b) _ (List.mem_cons_self _ _)
    rcases List.mem_cons.1 hx with rfl | hx1
    · exact le_trans (le_max_left _ _) hmax
    rcases List.mem_cons.1 hx1 with rfl | hx2
    · exact le_trans (le_max_right _ _) hmax
    · exact ih (max a b) x (List.mem_cons_of_mem _ hx2)

lemma pyMin_mem {l : List ℚ} (h : l ≠ []) : pyMin l ∈ l := by
  cases l with
  | nil => exact absurd rfl h
  | cons a t => exact foldl_min_mem t a

lemma pyMin_le {l : List ℚ} (h : l ≠ []) : ∀ x ∈ l, pyMin l ≤ x := by
  cases l with
  | nil => exact absurd rfl h
  | cons a t => exact foldl_min_le t a

lemma pyMax_mem {l : List ℚ} (h : l ≠ []) : pyMax l ∈ l := by
  cases l with
  | nil => exact absurd rfl h
  | cons a t => exact foldl_max_mem t a

lemma le_pyMax {l : List ℚ} (h : l ≠ []) : ∀ x ∈ l, x ≤ pyMax l := by
  cases l with
  | nil => exact absurd rfl h
  | cons a t => exact le_foldl_max t a

/-! ### Helper lemmas: the grid-search loop -/

lemma grid_foldl (fit : ℕ → Option ℚ) :
    ∀ (ps : List ℕ) (acc : List ℚ × List (List ℕ)),
      ps.foldl (AR_grid_step fit) acc =
        (acc.1 ++ (AR_successes_on fit ps).map Prod.snd,
         acc.2 ++ (AR_successes_on fit ps).map (fun x => [x.1])) := by
  intro ps
  induction ps with
  | nil => intro acc; simp [AR_successes_on]
  | cons p t ih =>
    intro acc
    rw [List.foldl_cons, ih]
    cases hp : fit p with
    | none =>
      simp [AR_grid_step, AR_successes_on, hp]
    | some a =>
      simp [AR_grid_step, AR_successes_on, hp]

lemma AR_grid_search_eq (fit : ℕ → Option ℚ) :
    AR_grid_search fit =
      ((AR_successes fit).map Prod.snd, (AR_successes fit).map (fun x => [x.1])) := by
  rw [AR_grid_search, grid_foldl fit AR_orders ([], [])]
  rfl

lemma mem_AR_successes {fit : ℕ → Option ℚ} {p : ℕ} {a : ℚ} :
    (p, a) ∈ AR_successes fit ↔ p ∈ AR_orders ∧ fit p = some a := by
  constructor
  · intro h
    rcases List.mem_filterMap.1 h with ⟨q, hq, hmap⟩
    rcases Option.map_eq_some'.1 hmap with ⟨b, hb, heq⟩
    have h1 : q = p := congrArg Prod.fst heq
    have h2 : b = a := congrArg Prod.snd heq
    subst h1; subst h2
    exact ⟨hq, hb⟩
  · rintro ⟨hmem, hfit⟩
    exact List.mem_filterMap.2 ⟨p, hmem, by rw [hfit]; rfl⟩

lemma AR_successes_on_fst (fit : ℕ → Option ℚ) :
    ∀ ps : List ℕ,
      (AR_successes_on fit ps).map Prod.fst = ps.filter (fun p => (fit p).isSome) := by
  intro ps
  induction ps with
  | nil => rfl
  | cons p t ih =>
    cases hp : fit p with
    | none =>
      have hc : AR_successes_on fit (p :: t) = AR_successes_on fit t := by
        simp [AR_successes_on, List.filterMap_cons, hp]
      rw [hc, ih, List.filter_cons]
      simp [hp]
    | some a =>
      have hc : AR_successes_on fit (p :: t) = (p, a) :: AR_successes_on fit t := by
        simp [AR_successes_on, List.filterMap_cons, hp]
      rw [hc, List.map_cons, ih, List.filter_cons]
      simp [hp]

lemma AR_successes_fst_sorted (fit : ℕ → Option ℚ) :
    ((AR_successes fit).map Prod.fst).Pairwise (· < ·) := by
  rw [AR_successes, AR_successes_on_fst]
  exact (List.pairwise_lt_range 25).filter _

lemma fst_strictMono {S : List (ℕ × ℚ)} (hp : (S.map Prod.fst).Pairwise (· < ·))
    {i j : ℕ} (hi : i < S.length) (hj : j < S.length) (hij : i < j) :
    (S.get ⟨i, hi⟩).1 < (S.get ⟨j, hj⟩).1 := by
  rw [List.pairwise_iff_getElem] at hp
  have := hp i j (by rw [List.length_map]; exact hi) (by rw [List.length_map]; exact hj) hij
  simpa [List.getElem_map, List.get_eq_getElem] using this

/-! ### Helper lemmas: first index of a value (`pyIndex`) -/

lemma pyIndex_lt_length {l : List ℚ} {v : ℚ} (h : v ∈ l) : pyIndex l v < l.length :=
  List.findIdx_lt_length_of_exists ⟨v, h, by simp⟩

lemma pyIndex_get {l : List ℚ} {v : ℚ} (h : pyIndex l v < l.length) :
    l.get ⟨pyIndex l v, h⟩ = v := by
  have := List.findIdx_getElem (w := h)
  simpa [List.get_eq_getElem] using this

lemma pyIndex_first {l : List ℚ} {v : ℚ} {j : ℕ} (hj : j < l.length)
    (hlt : j < pyIndex l v) : l.get ⟨j, hj⟩ ≠ v := by
  have := List.not_of_lt_findIdx hlt
  simpa [List.get_eq_getElem] using this

/-! ### Helper lemmas: OHLC rows -/

lemma getLast?_cons_eq_some (a : ℚ) (t : List ℚ) :
    (a :: t).getLast? = some ((a :: t).getLast (List.cons_ne_nil a t)) :=
  List.getLast?_eq_getLast _ _

lemma ohlc_row_cons (a : ℚ) (t : List ℚ) :
    (ohlc_row (a :: t)).«open» = a ∧
    (a :: t).getLast? = some (ohlc_row (a :: t)).close ∧
    (ohlc_row (a :: t)).high ∈ a :: t ∧ (∀ x ∈ a :: t, x ≤ (ohlc_row (a :: t)).high) ∧
    (ohlc_row (a :: t)).low ∈ a :: t ∧ (∀ x ∈ a :: t, (ohlc_row (a :: t)).low ≤ x) := by
  refine ⟨rfl, ?_, foldl_max_mem t a, le_foldl_max t a, foldl_min_mem t a, foldl_min_le t a⟩
  have hc : (ohlc_row (a :: t)).close = (a :: t).getLast (List.cons_ne_nil a t) := by
    show ((a :: t).getLast?).getD 0 = _
    rw [getLast?_cons_eq_some]
    rfl
  rw [hc, getLast?_cons_eq_some]

lemma ohlc_row_close_mem (a : ℚ) (t : List ℚ) : (ohlc_row (a :: t)).close ∈ a :: t := by
  have hc : (ohlc_row (a :: t)).close = (a :: t).getLast (List.cons_ne_nil a t) := by
    show ((a :: t).getLast?).getD 0 = _
    rw [getLast?_cons_eq_some]
    rfl
  rw [hc]
  exact List.getLast_mem _

/-! ### The claims -/

/-- C1 counterexample: on the two-point series `x_0 = 0, x_1 = 1`, the
notebook's differenced series holds `x_0 - x_1 = -1` at position 1, not the
first difference `x_1 - x_0 = 1` the claim asserts. -/
theorem counterexample_C1 :
    diff_series sC1 = [(1, 0 - 1)] ∧ diff_series sC1 ≠ [(1, 1 - 0)] := by
  constructor <;>
    norm_num [sC1, diff_series, shiftSub, shiftSubGo, dropna, List.filterMap_cons]

/-- C1 (amended): for each periodicity the series fed to the ADF test and
the ACF/PACF plots, `(X.shift(1) - X).dropna()`, equals at every position
`t ≥ 1` the REVERSED first difference `x_{t-1} - x_t` (the negation of the
claimed `x_t - x_{t-1}`), with the single undefined initial value dropped. -/
theorem claim_C1 {α : Type} (s : List (α × ℚ)) (i : ℕ) (h : i + 1 < s.length) :
    (diff_series s).length = s.length - 1 ∧
    (diff_series s)[i]? =
      some ((s.get ⟨i + 1, h⟩).1,
        (s.get ⟨i, Nat.lt_of_succ_lt h⟩).2 - (s.get ⟨i + 1, h⟩).2) :=
  ⟨diff_series_length s, diff_series_getElem s i h⟩

/-- C1 witness: the amended claim evaluated on the series `x_0 = 2, x_1 = 5`
at position 1. -/
theorem witness_C1 :
    (diff_series sW1).length = sW1.length - 1 ∧
    (diff_series sW1)[0]? =
      some ((sW1.get ⟨1, by decide⟩).1,
        (sW1.get ⟨0, by decide⟩).2 - (sW1.get ⟨1, by decide⟩).2) :=
  claim_C1 sW1 0 (by decide)

/-- C9: for every input series of length `n ≥ 1` with no missing values,
`(series.shift(1) - series).dropna()` has length exactly `n - 1` and its
index is the input index with the first element removed. -/
theorem claim_C9 {α : Type} (s : List (α × ℚ)) (h : 1 ≤ s.length) :
    (diff_series s).length = s.length - 1 ∧
    (diff_series s).map Prod.fst = (s.map Prod.fst).tail := by
  refine ⟨diff_series_length s, ?_⟩
  rw [diff_series_eq, List.map_map]
  have h1 : (Prod.fst ∘ fun p : (α × ℚ) × (α × ℚ) => (p.2.1, p.1.2 - p.2.2)) =
      (Prod.fst ∘ Prod.snd) := rfl
  rw [h1, ← List.map_map, List.map_snd_zip s s.tail (by rw [List.length_tail]; omega),
    List.map_tail]

/-- C9 witness: the statement evaluated on a concrete two-point series. -/
theorem witness_C9 :
    (diff_series sW9).length = sW9.length - 1 ∧
    (diff_series sW9).map Prod.fst = (sW9.map Prod.fst).tail :=
  claim_C9 sW9 (by decide)

set_option maxRecDepth 40000 in
/-- C2 counterexample: on an AIC oracle whose minimum is achieved at
candidate order 1, the order the grid search reports as best is 1, while the
models subsequently fitted have the hard-coded orders 0 (monthly) and 2
(weekly) — so the fitted order is not the reported best order. -/
theorem counterexample_C2 :
    best_order fitC2 ≠ fitted_order_monthly ∧ best_order fitC2 ≠ fitted_order_weekly := by
  decide

/-- C2 (amended): the orders of the AR models fitted and summarized after
the grid searches are the fixed literals 0 (monthly) and 2 (weekly),
independent of the AIC values; the fitted model has the order the grid
search reports as best precisely when that reported order happens to be the
respective literal. -/
theorem claim_C2 :
    fitted_order_monthly = 0 ∧ fitted_order_weekly = 2 ∧
    ∀ fit : ℕ → Option ℚ,
      (fitted_order_monthly = best_order fit ↔ best_order fit = 0) ∧
      (fitted_order_weekly = best_order fit ↔ best_order fit = 2) :=
  ⟨rfl, rfl, fun _ =>
    ⟨⟨fun h => h.symm, fun h => h.symm⟩, ⟨fun h => h.symm, fun h => h.symm⟩⟩⟩

set_option maxRecDepth 40000 in
/-- C2 witness: on the constant oracle every order fits with AIC 1, the grid
search reports order 0 as best, and the monthly fitted order agrees with it. -/
theorem witness_C2 : fitted_order_monthly = best_order fitW4 :=
  (claim_C2.2.2 fitW4).1.mpr (by decide)

/-- C3: the coefficient sequence the notebook passes to the root finder is
the literal `(1, -0.1, 0.04)` — that is `(1, phi1, phi2)` — and differs from
the characteristic-polynomial coefficients `(1, -phi1, -phi2) = (1, 0.1,
-0.04)` the claim (and the notebook's own markdown) prescribe; the two
quadratics differ qualitatively: the one the code solves has a complex root
pair (negative discriminant) while the characteristic polynomial has two
real roots (positive discriminant). -/
theorem claim_C3 :
    polyroots_coeffs = [1, AR2_phi1, AR2_phi2] ∧
    polyroots_coeffs ≠ char_poly_coeffs ∧
    char_poly_coeffs = [1, 1/10, -(1/25)] ∧
    quad_disc polyroots_coeffs < 0 ∧ 0 < quad_disc char_poly_coeffs := by
  refine ⟨?_, ?_, ?_, ?_, ?_⟩ <;>
    norm_num [polyroots_coeffs, AR2_phi1, AR2_phi2, char_poly_coeffs, quad_disc]

/-- C7: `fred_data0` contains exactly the rows of the loaded CSV whose
`DGS10` value is non-missing, in their original order (it is a sublist of
the input), with the rows themselves unchanged; membership depends only on
the `DGS10` column, so a row missing values only elsewhere is retained. -/
theorem claim_C7 {α : Type} (df : List (Row α)) :
    fred_data0 df = df.filter (fun r => r.DGS10.isSome) ∧
    (fred_data0 df).Sublist df ∧
    ∀ r, r ∈ fred_data0 df ↔ r ∈ df ∧ r.DGS10.isSome = true := by
  have h1 : fred_data0 df = df.filter (fun r => r.DGS10.isSome) := by
    unfold fred_data0
    refine List.filter_congr ?_
    intro r _
    cases h : r.DGS10 <;> simp [isna_DGS10, h]
  refine ⟨h1, ?_, ?_⟩
  · rw [h1]
    exact List.filter_sublist df
  · intro r
    rw [h1, List.mem_filter]

/-- C7 witness: on a two-row table, the row with `DGS10` present but another
column missing is retained by the filter. -/
theorem witness_C7 : rowW1 ∈ fred_data0 dfW :=
  ((claim_C7 dfW).2.2 rowW1).mpr ⟨List.mem_cons_self _ _, rfl⟩

/-- C5: for every non-empty sub-period group, `resample_plot` returns at the
corresponding position a row whose open is the first observation of the
group, whose high is its maximum, whose low is its minimum and whose close
is its last observation; and the series used downstream is exactly the
close column of the result. -/
theorem claim_C5 (groups : List (List ℚ)) (hne : ∀ g ∈ groups, g ≠ []) :
    DGS10_resampled groups = (resample_plot groups).map OHLCRow.close ∧
    ∀ i (hi : i < groups.length),
      ∃ r, (resample_plot groups)[i]? = some r ∧
        (groups.get ⟨i, hi⟩).head? = some r.«open» ∧
        (groups.get ⟨i, hi⟩).getLast? = some r.close ∧
        r.high ∈ groups.get ⟨i, hi⟩ ∧ (∀ x ∈ groups.get ⟨i, hi⟩, x ≤ r.high) ∧
        r.low ∈ groups.get ⟨i, hi⟩ ∧ ∀ x ∈ groups.get ⟨i, hi⟩, r.low ≤ x := by
  refine ⟨rfl, ?_⟩
  intro i hi
  refine ⟨ohlc_row (groups.get ⟨i, hi⟩), ?_, ?_⟩
  · have hm : i < (resample_plot groups).length := by
      rw [resample_plot, List.length_map]
      exact hi
    rw [List.getElem?_eq_getElem hm]
    simp [resample_plot, List.getElem_map, List.get_eq_getElem]
  · have hgne : groups.get ⟨i, hi⟩ ≠ [] := hne _ (List.get_mem groups i hi)
    obtain ⟨a, t, hat⟩ : ∃ a t, groups.get ⟨i, hi⟩ = a :: t := by
      cases hg : groups.get ⟨i, hi⟩ with
      | nil => exact absurd hg hgne
      | cons a t => exact ⟨a, t, rfl⟩
    rw [hat]
    rcases ohlc_row_cons a t with ⟨ho, hc, hh1, hh2, hl1, hl2⟩
    exact ⟨by rw [List.head?_cons, ho], hc, hh1, hh2, hl1, hl2⟩

/-- C5 witness: the statement evaluated on the single group `[1, 2]`. -/
theorem witness_C5 :
    DGS10_resampled groupsW5 = (resample_plot groupsW5).map OHLCRow.close ∧
    ∀ i (hi : i < groupsW5.length),
      ∃ r, (resample_plot groupsW5)[i]? = some r ∧
        (groupsW5.get ⟨i, hi⟩).head? = some r.«open» ∧
        (groupsW5.get ⟨i, hi⟩).getLast? = some r.close ∧
        r.high ∈ groupsW5.get ⟨i, hi⟩ ∧ (∀ x ∈ groupsW5.get ⟨i, hi⟩, x ≤ r.high) ∧
        r.low ∈ groupsW5.get ⟨i, hi⟩ ∧ ∀ x ∈ groupsW5.get ⟨i, hi⟩, r.low ≤ x :=
  claim_C5 groupsW5 (by simp [groupsW5])

/-- C10: every bar returned by `resample_plot` on non-empty sub-period
groups satisfies the OHLC invariant `low ≤ open ≤ high` and
`low ≤ close ≤ high`. -/
theorem claim_C10 (groups : List (List ℚ)) (hne : ∀ g ∈ groups, g ≠ []) :
    ∀ r ∈ resample_plot groups,
      r.low ≤ r.«open» ∧ r.«open» ≤ r.high ∧ r.low ≤ r.close ∧ r.close ≤ r.high := by
  intro r hr
  rcases List.mem_map.1 hr with ⟨g, hg, rfl⟩
  obtain ⟨a, t, rfl⟩ : ∃ a t, g = a :: t := by
    cases g with
    | nil => exact absurd rfl (hne [] hg)
    | cons a t => exact ⟨a, t, rfl⟩
  rcases ohlc_row_cons a t with ⟨ho, -, -, hh2, hl1, hl2⟩
  have hcm := ohlc_row_close_mem a t
  have hom : (ohlc_row (a :: t)).«open» ∈ a :: t := by
    rw [ho]
    exact List.mem_cons_self a t
  exact ⟨hl2 _ hom, hh2 _ hom, hl2 _ hcm, hh2 _ hcm⟩

/-- C10 witness: the invariant evaluated at the concrete bar of the single
group `[2, 1, 3]`. -/
theorem witness_C10 :
    (ohlc_row [(2 : ℚ), 1, 3]).low ≤ (ohlc_row [(2 : ℚ), 1, 3]).«open» ∧
    (ohlc_row [(2 : ℚ), 1, 3]).«open» ≤ (ohlc_row [(2 : ℚ), 1, 3]).high ∧
    (ohlc_row [(2 : ℚ), 1, 3]).low ≤ (ohlc_row [(2 : ℚ), 1, 3]).close ∧
    (ohlc_row [(2 : ℚ), 1, 3]).close ≤ (ohlc_row [(2 : ℚ), 1, 3]).high :=
  claim_C10 groupsW10 (by simp [groupsW10]) (ohlc_row [(2 : ℚ), 1, 3])
    (by simp [groupsW10, resample_plot])

/-- C4: after the grid-search loop, provided at least one fit succeeded, the
printed order `AR_model[AIC.index(min(AIC))][0]` is a successfully fitted
candidate order whose recorded AIC equals the minimum of all recorded AIC
values, and it is the smallest such order. -/
theorem claim_C4 (fit : ℕ → Option ℚ) (h : (AR_grid_search fit).1 ≠ []) :
    (best_order fit, pyMin (AR_grid_search fit).1) ∈ AR_successes fit ∧
    ∀ p a, (p, a) ∈ AR_successes fit →
      a = pyMin (AR_grid_search fit).1 → best_order fit ≤ p := by
  have haic : (AR_grid_search fit).1 = (AR_successes fit).map Prod.snd := by
    rw [AR_grid_search_eq fit]
  have hmodel : (AR_grid_search fit).2 = (AR_successes fit).map (fun x => [x.1]) := by
    rw [AR_grid_search_eq fit]
  set S := AR_successes fit with hSdef
  set m := pyMin (AR_grid_search fit).1 with hmdef
  set k := pyIndex (AR_grid_search fit).1 m with hkdef
  have hm2 : m = pyMin (S.map Prod.snd) := by rw [hmdef, haic]
  have hk2 : k = pyIndex (S.map Prod.snd) m := by rw [hkdef, haic]
  have hSne : S.map Prod.snd ≠ [] := by rw [← haic]; exact h
  have hmem : m ∈ S.map Prod.snd := by rw [hm2]; exact pyMin_mem hSne
  have hkl : k < (S.map Prod.snd).length := by rw [hk2]; exact pyIndex_lt_length hmem
  have hkS : k < S.length := by rwa [List.length_map] at hkl
  have hbest : best_order fit = (S.get ⟨k, hkS⟩).1 := by
    unfold best_order
    rw [← hmdef, ← hkdef, hmodel]
    have hkm : k < (S.map (fun x => [x.1])).length := by
      rw [List.length_map]; exact hkS
    rw [List.getD_eq_getElem _ _ hkm]
    simp [List.getElem_map, List.get_eq_getElem]
  have hsnd : (S.get ⟨k, hkS⟩).2 = m := by
    have h1 : (S.map Prod.snd).get ⟨k, hkl⟩ = m := by
      have hfin : (⟨k, hkl⟩ : Fin (S.map Prod.snd).length) =
          ⟨pyIndex (S.map Prod.snd) m, hk2 ▸ hkl⟩ := Fin.ext hk2
      rw [hfin]
      exact pyIndex_get _
    simpa [List.get_eq_getElem, List.getElem_map] using h1
  constructor
  · rw [hbest]
    have hp : ((S.get ⟨k, hkS⟩).1, m) = S.get ⟨k, hkS⟩ := by
      rw [← hsnd]
    rw [hp]
    exact List.get_mem S k hkS
  · intro p a hpa ha
    rcases List.getElem_of_mem hpa with ⟨j, hj, hjeq⟩
    have hjeq2 : S.get ⟨j, hj⟩ = (p, a) := by
      simpa [List.get_eq_getElem] using hjeq
    by_contra hcon
    push_neg at hcon
    rw [hbest] at hcon
    have hjk : j < k := by
      by_contra hjk2
      push_neg at hjk2
      rcases eq_or_lt_of_le hjk2 with heq | hlt
      · have hkj : (⟨k, hkS⟩ : Fin S.length) = ⟨j, hj⟩ := by
          apply Fin.ext
          exact heq
        rw [hkj, hjeq2] at hcon
        exact lt_irrefl p hcon
      · have := fst_strictMono (AR_successes_fst_sorted fit) hkS hj hlt
        rw [hjeq2] at this
        exact absurd (lt_trans hcon this) (lt_irrefl p)
    have hjl : j < (S.map Prod.snd).length := by
      rw [List.length_map]; exact hj
    have hne2 : (S.map Prod.snd).get ⟨j, hjl⟩ ≠ m := by
      apply pyIndex_first hjl
      rw [← hk2]
      exact hjk
    apply hne2
    have : (S.map Prod.snd).get ⟨j, hjl⟩ = (S.get ⟨j, hj⟩).2 := by
      simp [List.get_eq_getElem, List.getElem_map]
    rw [this, hjeq2, ha]

set_option maxRecDepth 40000 in
/-- C4 witness: on the constant oracle with every AIC equal to 1, the
reported best order is a successful candidate achieving the minimum. -/
theorem witness_C4 :
    (best_order fitW4, pyMin (AR_grid_search fitW4).1) ∈ AR_successes fitW4 :=
  (claim_C4 fitW4 (by decide)).1

/-- C6: in the model-search loop an order whose construction or fit raises
an exception contributes no entry to either `AIC` or `AR_model`; after the
loop the two lists have equal length, the i-th entries of the two lists
come from the same successfully fitted order, and no failed order appears. -/
theorem claim_C6 (fit : ℕ → Option ℚ) :
    (AR_grid_search fit).1.length = (AR_grid_search fit).2.length ∧
    (∀ i, i < (AR_grid_search fit).1.length →
      ∃ p a, (AR_grid_search fit).2[i]? = some [p] ∧
        (AR_grid_search fit).1[i]? = some a ∧ fit p = some a) ∧
    ∀ p, fit p = none → [p] ∉ (AR_grid_search fit).2 := by
  have haic : (AR_grid_search fit).1 = (AR_successes fit).map Prod.snd := by
    rw [AR_grid_search_eq fit]
  have hmodel : (AR_grid_search fit).2 = (AR_successes fit).map (fun x => [x.1]) := by
    rw [AR_grid_search_eq fit]
  refine ⟨by rw [haic, hmodel, List.length_map, List.length_map], ?_, ?_⟩
  · intro i hi
    have hiS : i < (AR_successes fit).length := by
      rw [haic, List.length_map] at hi
      exact hi
    refine ⟨((AR_successes fit).get ⟨i, hiS⟩).1, ((AR_successes fit).get ⟨i, hiS⟩).2,
      ?_, ?_, ?_⟩
    · rw [hmodel, List.getElem?_eq_getElem (by rw [List.length_map]; exact hiS)]
      simp [List.getElem_map, List.get_eq_getElem]
    · rw [haic, List.getElem?_eq_getElem (by rw [List.length_map]; exact hiS)]
      simp [List.getElem_map, List.get_eq_getElem]
    · have hx : (((AR_successes fit).get ⟨i, hiS⟩).1, ((AR_successes fit).get ⟨i, hiS⟩).2)
          ∈ AR_successes fit := by
        rw [Prod.mk.eta]
        exact List.get_mem _ _ _
      exact (mem_AR_successes.1 hx).2
  · intro p hp hmem
    rw [hmodel] at hmem
    rcases List.mem_map.1 hmem with ⟨x, hx, hxeq⟩
    have hx1 : x.1 = p := by
      injection hxeq
    have hfit : fit x.1 = some x.2 := by
      have hx2 : (x.1, x.2) ∈ AR_successes fit := by
        rw [Prod.mk.eta]
        exact hx
      exact (mem_AR_successes.1 hx2).2
    rw [hx1, hp] at hfit
    exact Option.noConfusion hfit

set_option maxRecDepth 40000 in
/-- C6 witness: on the oracle where fitting order 3 raises, position 0 of
the two lists still corresponds to one successful order, and `[3]` never
appears in `AR_model`. -/
theorem witness_C6 :
    (∃ p a, (AR_grid_search fitW6).2[0]? = some [p] ∧
      (AR_grid_search fitW6).1[0]? = some a ∧ fitW6 p = some a) ∧
    [(3 : ℕ)] ∉ (AR_grid_search fitW6).2 :=
  ⟨(claim_C6 fitW6).2.1 0 (by decide), (claim_C6 fitW6).2.2 3 rfl⟩

/-- C8: the ADF test is invoked exactly twice per periodicity — once on the
raw series and once on the differenced series with its missing value
dropped — six invocations in all, and each cell prints the second component
(the p-value) of the tuple `adfuller` returns. -/
theorem claim_C8 {α : Type} (adfuller : List ℚ → ADFTuple)
    (daily weekly monthly : List (α × ℚ)) :
    (adf_section adfuller daily weekly monthly).length = 6 ∧
    (∀ f : Freq, ∀ b : Bool,
      (adf_section adfuller daily weekly monthly).countP
        (fun c => decide (c.1 = f) && (c.2.1 == b)) = 1) ∧
    (Freq.daily, false, adf_print (adfuller (values daily)))
      ∈ adf_section adfuller daily weekly monthly ∧
    (Freq.weekly, false, adf_print (adfuller (values weekly)))
      ∈ adf_section adfuller daily weekly monthly ∧
    (Freq.monthly, false, adf_print (adfuller (values monthly)))
      ∈ adf_section adfuller daily weekly monthly ∧
    (Freq.daily, true, adf_print (adfuller (values (diff_series daily))))
      ∈ adf_section adfuller daily weekly monthly ∧
    (Freq.weekly, true, adf_print (adfuller (values (diff_series weekly))))
      ∈ adf_section adfuller daily weekly monthly ∧
    (Freq.monthly, true, adf_print (adfuller (values (diff_series monthly))))
      ∈ adf_section adfuller daily weekly monthly ∧
    ∀ r : ADFTuple, adf_print r = r.2.1 := by
  refine ⟨rfl, ?_, ?_, ?_, ?_, ?_, ?_, ?_, fun r => rfl⟩
  · intro f b
    cases f <;> cases b <;> rfl
  all_goals simp [adf_section]

end TSA
